import Mathlib

/-!
Verification of the scoped RBAC core of the Nextperience CRM repository.

The application tier is embedded from `src/lib/rbac.ts` (`can`) and
`src/contexts/CompanyContext.tsx` (`loadUserRoleForCompany`'s permission merge,
`getDefaultPermissions`, `getAllAccessPermissions`).  The storage tier is
embedded from `supabase/migrations/20251021052450_add_proforma_invoice_id_to_payments.sql`
(the `rbac_scope` SQL function and the row-level-security policies built on it)
and `supabase/migrations/20251103090500_seed_scoped_roles.sql` (the role and
assignment management policies).  The ensure-assigned transition of the
assignment store is modelled from the spec, since the body of the
`assign_user_to_company_role` function and the schema's constraint DDL are not
in the observed sources.
-/

namespace NextperienceRBAC

/-- Module keys of the permission documents.  The eleven modules of the closed
vocabulary plus `payments`, which occurs as a key in
`getAllAccessPermissions()` in `CompanyContext.tsx`. -/
inductive Module
  | dashboard
  | customers
  | leads
  | activities
  | products
  | pipeline
  | event_types
  | quotations
  | payment_verification
  | templates
  | settings
  | payments
  deriving DecidableEq, Repr, Fintype

/-- CRUD actions, from the `action` parameter of `can` in `rbac.ts`. -/
inductive Action
  | create
  | read
  | update
  | delete
  deriving DecidableEq, Repr, Fintype

/-- A permission value as it occurs in the stored JSON documents:
`Scope = 'all' | 'own' | 'ownDeals' | false` from `rbac.ts`, plus the literal
boolean `true` used for `dashboard.read`. -/
inductive PermValue
  | all
  | own
  | ownDeals
  | falseVal
  | trueVal
  deriving DecidableEq, Repr, Fintype

/-- `ModulePerm` from `rbac.ts`: a partial map from actions to values.
`none` models an absent key. -/
def ModulePerm := Action → Option PermValue

/-- `Permissions` from `rbac.ts`: a partial map from modules to per-module
action maps.  `none` models an absent module key. -/
def Permissions := Module → Option ModulePerm

/-- The shape of records consumed by scope evaluation: optional `owner_id`
and `assigned_to` fields, from the `record` parameter of `can`. -/
structure OwnedRecord where
  owner_id : Option String
  assigned_to : Option String
  deriving DecidableEq, Repr

/-- Value of a permission document at a (module, action) pair; `none` when the
module key or the action key is absent. -/
def permValueAt (p : Permissions) (m : Module) (a : Action) : Option PermValue :=
  match p m with
  | some mp => mp a
  | none => none

/-- Value lookup through an optional permission document. -/
def effValueAt (perms : Option Permissions) (m : Module) (a : Action) : Option PermValue :=
  match perms with
  | some p => permValueAt p m a
  | none => none

/-- `can` from `src/lib/rbac.ts`, line for line:
`if (!perms) return false;` then module lookup, action lookup,
`v === true || v === 'all'` allows, `'own'` compares `record?.owner_id === userId`,
`'ownDeals'` compares `record?.assigned_to === userId`, otherwise deny.
Strict JS equality on possibly-undefined strings is `==` on `Option String`
(`undefined === undefined` is `true`). -/
def can (perms : Option Permissions) (m : Module) (a : Action)
    (record : Option OwnedRecord) (userId : Option String) : Bool :=
  match perms with
  | none => false
  | some p =>
    match p m with
    | none => false
    | some mp =>
      match mp a with
      | some .trueVal => true
      | some .all => true
      | some .own => (record.bind OwnedRecord.owner_id) == userId
      | some .ownDeals => (record.bind OwnedRecord.assigned_to) == userId
      | _ => false

/-- The scope-to-decision table of `can` factored out of the module/action
lookup, used to reason about `can` uniformly. -/
def scopeDecision (v : Option PermValue) (record : Option OwnedRecord)
    (userId : Option String) : Bool :=
  match v with
  | some .trueVal => true
  | some .all => true
  | some .own => (record.bind OwnedRecord.owner_id) == userId
  | some .ownDeals => (record.bind OwnedRecord.assigned_to) == userId
  | _ => false

/-- Per-module merge step of `loadUserRoleForCompany` in `CompanyContext.tsx`:
`{ ...basePermissions[module], ...(overrides[module] || {}) }` — an action key
present in the override wins, an absent one falls back to base. -/
def mergeModule (bm : Option ModulePerm) (om : ModulePerm) : ModulePerm :=
  fun a =>
    match om a with
    | some v => some v
    | none =>
      match bm with
      | some b => b a
      | none => none

/-- The permission merge of `loadUserRoleForCompany` in `CompanyContext.tsx`:
`{ ...basePermissions, ...Object.keys(overrides).reduce(...) }` — each module
key present in the override is merged per action with base, modules absent from
the override are taken unchanged from base. -/
def mergePermissions (base ovr : Permissions) : Permissions :=
  fun m =>
    match ovr m with
    | some om => some (mergeModule (base m) om)
    | none => base m

/-- `getDefaultPermissions()` from `CompanyContext.tsx`: explicit `false` on all
four actions for customers, leads, quotations, activities, products and
settings; every other module key absent. -/
def getDefaultPermissions : Permissions :=
  fun m =>
    match m with
    | .customers | .leads | .quotations | .activities | .products | .settings =>
        some (fun _ => some .falseVal)
    | _ => none

/-- `getAllAccessPermissions()` from `CompanyContext.tsx`: boolean `true` on all
four actions for customers, leads, quotations, activities, products, settings,
pipeline, event_types, templates and payments; `dashboard` and
`payment_verification` are absent. -/
def getAllAccessPermissions : Permissions :=
  fun m =>
    match m with
    | .customers | .leads | .quotations | .activities | .products | .settings
    | .pipeline | .event_types | .templates | .payments =>
        some (fun _ => some .trueVal)
    | _ => none

/-- The everywhere-absent permission document, the `|| {}` fallback for
`ucr.permission_overrides`. -/
def emptyPermissions : Permissions := fun _ => none

/-- The pure resolution step of `loadUserRoleForCompany`:
`basePermissions = role?.permissions || getDefaultPermissions()`,
`overrides = ucr.permission_overrides || {}`, then the merge. -/
def resolvePermissions (rolePerms : Option Permissions)
    (overrides : Option Permissions) : Permissions :=
  mergePermissions (rolePerms.getD getDefaultPermissions)
    (overrides.getD emptyPermissions)

/-- The permission outcome of `loadUserRoleForCompany` in `CompanyContext.tsx`:
with `has_all_access` set, `getAllAccessPermissions()`; otherwise, if an active
assignment row was found (with its role permissions and override), the merged
permissions; with no assignment, `null`. -/
def loadPermissions (hasAllAccess : Bool)
    (ucr : Option (Option Permissions × Option Permissions)) : Option Permissions :=
  match hasAllAccess with
  | true => some getAllAccessPermissions
  | false =>
    match ucr with
    | some (rp, po) => some (resolvePermissions rp po)
    | none => none

/-- `coalesce(nullif(po->m->>a,''), nullif(rp->m->>a,''), 'false')` — the value
coalescing inside the `rbac_scope` SQL function; `none` models the textual
default `'false'`. -/
def coalesceValue (ov base : Option PermValue) : Option PermValue :=
  match ov with
  | some v => some v
  | none => base

/-- The `rbac_scope(p_module, p_action, p_company)` SQL function for the
current user's active assignment: the override document's value at the
(module, action) pair if present, else the role document's, else unset
(the SQL text default `'false'`). -/
def rbac_scope (overridePerms rolePerms : Option Permissions)
    (m : Module) (a : Action) : Option PermValue :=
  coalesceValue (effValueAt overridePerms m a) (effValueAt rolePerms m a)

/-- The `case ... when 'all' then true when 'own' then row.owner_id = auth.uid()
else false end` expression shared by the customers, activities, quotations and
templates-select policies (and leads insert/delete). -/
def allOwnCase (scope : Option PermValue) (rowOwner : Option String)
    (uid : String) : Bool :=
  match scope with
  | some .all => true
  | some .own => rowOwner == some uid
  | _ => false

/-- The `case ... when 'all' then true when 'ownDeals' then
row.assigned_to = auth.uid() else false end` expression of the pipeline arms of
the leads select/update policies. -/
def allOwnDealsCase (scope : Option PermValue) (rowAssigned : Option String)
    (uid : String) : Bool :=
  match scope with
  | some .all => true
  | some .ownDeals => rowAssigned == some uid
  | _ => false

/-- The `case ... when 'all' then true else false end` expression of the
products, event_types and payments policies. -/
def allOnlyCase (scope : Option PermValue) : Bool :=
  match scope with
  | some .all => true
  | _ => false

/-- The `case ... when 'all' then true when 'true' then true else false end`
expression of the user_company_roles and roles management policies. -/
def allOrTrueCase (scope : Option PermValue) : Bool :=
  match scope with
  | some .all => true
  | some .trueVal => true
  | _ => false

/-- Common form of the owner-scoped row policies (`customers_select`,
`customers_insert`, `customers_update`, `customers_delete`, and likewise for
activities and quotations): `allOwnCase` applied to `rbac_scope` at the
table's module and the policy's action. -/
def ownerTablePolicy (overridePerms rolePerms : Option Permissions)
    (m : Module) (a : Action) (rowOwner : Option String) (uid : String) : Bool :=
  allOwnCase (rbac_scope overridePerms rolePerms m a) rowOwner uid

/-- The `payments_select` policy: `case rbac_scope('payment_verification',
'read', payments.company_id) when 'all' then true else false end`. -/
def paymentsSelect (overridePerms rolePerms : Option Permissions) : Bool :=
  allOnlyCase (rbac_scope overridePerms rolePerms .payment_verification .read)

/-- The `leads_select` policy: the leads owner arm ORed with the pipeline
`ownDeals` arm. -/
def leadsSelect (overridePerms rolePerms : Option Permissions)
    (row : OwnedRecord) (uid : String) : Bool :=
  allOwnCase (rbac_scope overridePerms rolePerms .leads .read) row.owner_id uid
    || allOwnDealsCase (rbac_scope overridePerms rolePerms .pipeline .read)
        row.assigned_to uid

/-- The `USING` clause of the `products_all` policy: grants only when
`rbac_scope('products','read',…)` is `'all'`. -/
def productsUsing (overridePerms rolePerms : Option Permissions) : Bool :=
  allOnlyCase (rbac_scope overridePerms rolePerms .products .read)

/-- The `"Users with settings.update can manage company roles"` policy on the
`roles` table: gated solely by `rbac_scope('settings','update',…)` of the
writer; the written row's `permissions` content is not consulted. -/
def roleUpsertAllowed (overridePerms rolePerms : Option Permissions)
    (_newPerms : Permissions) : Bool :=
  allOrTrueCase (rbac_scope overridePerms rolePerms .settings .update)

/- ===== Assignment store ===== -/

/-- A row of `user_company_roles` as used by the assignment flows. -/
structure AssignmentRow where
  user_id : String
  company_id : String
  role_id : String
  is_active : Bool
  deriving DecidableEq, Repr

/-- Whether a row is an active binding of the given user to the given
company. -/
def activePairPred (u c : String) : AssignmentRow → Bool :=
  fun row => (row.user_id == u && row.company_id == c) && row.is_active

/-- The ensure-assigned state transition of the assignment flows
(`assignCurrentUserToDefaultCompany` and the auto-assignment trigger, both of
which call `assign_user_to_company_role`).  Modelled from the spec: the body of
the `assign_user_to_company_role` SECURITY DEFINER function and the schema's
constraint DDL are not under `src/` (only its callers are); per the spec, the
one-active-assignment invariant rests on a partial uniqueness constraint on
`(user_id, tenant_id) WHERE is_active`, and inserting while an active
assignment for the (user, tenant) pair exists either is rejected by that
constraint or — when the active assignment is identical — silently no-ops, in
both cases leaving the store unchanged; with no active row for the pair a
fresh active assignment is inserted. -/
def ensureAssigned (rows : List AssignmentRow) (u c r : String) :
    List AssignmentRow :=
  if rows.any (activePairPred u c) then rows
  else rows ++ [(⟨u, c, r, true⟩ : AssignmentRow)]

/-- Number of active rows binding the given user to the given company. -/
def activePairCount (rows : List AssignmentRow) (u c : String) : Nat :=
  rows.countP (activePairPred u c)

/- ===== Helper lemmas ===== -/

/-- `can` on a present permission document is the factored scope-decision table
applied to the looked-up value. -/
theorem can_eq_scopeDecision (p : Permissions) (m : Module) (a : Action)
    (record : Option OwnedRecord) (userId : Option String) :
    can (some p) m a record userId = scopeDecision (permValueAt p m a) record userId := by
  cases hp : p m with
  | none => simp [can, permValueAt, scopeDecision, hp]
  | some mp =>
    cases ha : mp a with
    | none => simp [can, permValueAt, scopeDecision, hp, ha]
    | some v => cases v <;> simp [can, permValueAt, scopeDecision, hp, ha]

/-- `getDefaultPermissions` holds only explicit `false` entries or absent
keys. -/
theorem defaultPermissions_value (m : Module) (a : Action) :
    permValueAt getDefaultPermissions m a = none
      ∨ permValueAt getDefaultPermissions m a = some PermValue.falseVal := by
  cases m <;> simp [getDefaultPermissions, permValueAt]

/-- The per-action coalescing law of the application-tier merge. -/
theorem mergePermissions_value (base ovr : Permissions) (m : Module) (a : Action) :
    permValueAt (mergePermissions base ovr) m a
      = coalesceValue (permValueAt ovr m a) (permValueAt base m a) := by
  cases ho : ovr m with
  | none => simp [mergePermissions, permValueAt, coalesceValue, ho]
  | some om =>
    cases ha : om a with
    | none =>
      simp [mergePermissions, permValueAt, coalesceValue, ho, mergeModule, ha]
    | some v =>
      simp [mergePermissions, permValueAt, coalesceValue, ho, mergeModule, ha]

/-- Relation between the application-tier resolved value and the storage-tier
`rbac_scope` value on the same role and override documents: they are equal,
except that with no role document the application substitutes
`getDefaultPermissions`, whose explicit `false` entries surface where the SQL
default is the unset `'false'` text — both denying. -/
theorem resolveValue_vs_rbacScope (rp po : Option Permissions)
    (m : Module) (a : Action) :
    permValueAt (resolvePermissions rp po) m a = rbac_scope po rp m a
      ∨ (rbac_scope po rp m a = none
          ∧ permValueAt (resolvePermissions rp po) m a = some PermValue.falseVal) := by
  cases rp with
  | some p =>
    left
    cases po with
    | none =>
      simp only [resolvePermissions, Option.getD]
      rw [mergePermissions_value]
      simp [rbac_scope, effValueAt, permValueAt, emptyPermissions]
    | some q =>
      simp only [resolvePermissions, Option.getD]
      rw [mergePermissions_value]
      simp [rbac_scope, effValueAt]
  | none =>
    cases po with
    | none =>
      simp only [resolvePermissions, Option.getD]
      rw [mergePermissions_value]
      have he : permValueAt emptyPermissions m a = none := rfl
      rcases defaultPermissions_value m a with hd | hd
      · left
        simp [rbac_scope, effValueAt, coalesceValue, he, hd]
      · right
        simp [rbac_scope, effValueAt, coalesceValue, he, hd]
    | some q =>
      simp only [resolvePermissions, Option.getD]
      rw [mergePermissions_value]
      cases hq : permValueAt q m a with
      | some v => left; simp [rbac_scope, effValueAt, coalesceValue, hq]
      | none =>
        rcases defaultPermissions_value m a with hd | hd
        · left; simp [rbac_scope, effValueAt, coalesceValue, hq, hd]
        · right; simp [rbac_scope, effValueAt, coalesceValue, hq, hd]

/- ===== Claim theorems ===== -/

/-- C10: `can` is total at the public interface: on every input it evaluates to
one of the two booleans, and with the permission document absent
(`can(undefined, …)`) it returns `false` for every module, action, record and
user. -/
theorem can_total_and_none_denies (perms : Option Permissions) (m : Module)
    (a : Action) (record : Option OwnedRecord) (userId : Option String) :
    (can perms m a record userId = true ∨ can perms m a record userId = false)
      ∧ can none m a record userId = false := by
  refine ⟨?_, rfl⟩
  cases h : can perms m a record userId
  · right; rfl
  · left; rfl

/-- C4: lookup is total and default-deny: whenever the (module, action) entry is
absent — the whole document absent, the module key absent, or the action key
absent — `can` returns `false`. -/
theorem can_default_deny_absent_entry (perms : Option Permissions) (m : Module)
    (a : Action) (record : Option OwnedRecord) (userId : Option String)
    (h : effValueAt perms m a = none) :
    can perms m a record userId = false := by
  cases perms with
  | none => rfl
  | some p =>
    rw [can_eq_scopeDecision]
    simp only [effValueAt] at h
    rw [h]
    rfl

/-- A permission document carrying only a `leads` entry, used to witness the
default-deny lookup on the absent `settings` module. -/
def leadsOnlyPerms : Permissions :=
  fun m =>
    match m with
    | .leads => some (fun _ => some .all)
    | _ => none

/-- Witness for C4: `can(eff, "settings", "create")` with no `settings` entry
present returns `false`. -/
theorem can_default_deny_absent_entry_witness :
    can (some leadsOnlyPerms) Module.settings Action.create none none = false :=
  can_default_deny_absent_entry (some leadsOnlyPerms) Module.settings
    Action.create none none rfl

/-- C8: a resolved value of `'all'`, or of the literal boolean `true` (the
`dashboard.read` representation), makes `can` return `true` regardless of the
record and user arguments. -/
theorem can_allows_all_and_true (perms : Option Permissions) (m : Module)
    (a : Action) (record : Option OwnedRecord) (userId : Option String)
    (h : effValueAt perms m a = some PermValue.all
        ∨ effValueAt perms m a = some PermValue.trueVal) :
    can perms m a record userId = true := by
  cases perms with
  | none => rcases h with h | h <;> simp [effValueAt] at h
  | some p =>
    rw [can_eq_scopeDecision]
    simp only [effValueAt] at h
    rcases h with h | h <;> rw [h] <;> rfl

/-- A permission document with `products.read = 'all'` and
`dashboard.read = true`, used to witness the unconditional allow cases. -/
def allAndTruePerms : Permissions :=
  fun m =>
    match m with
    | .products => some (fun a => match a with | .read => some .all | _ => none)
    | .dashboard => some (fun a => match a with | .read => some .trueVal | _ => none)
    | _ => none

/-- Witness for C8: `products.read = 'all'` allows with no record, and
`dashboard.read = true` allows. -/
theorem can_allows_all_and_true_witness :
    can (some allAndTruePerms) Module.products Action.read none none = true
      ∧ can (some allAndTruePerms) Module.dashboard Action.read none none = true :=
  ⟨can_allows_all_and_true (some allAndTruePerms) Module.products Action.read
      none none (Or.inl rfl),
    can_allows_all_and_true (some allAndTruePerms) Module.dashboard Action.read
      none none (Or.inr rfl)⟩

/-- C9: the resolution merge is deterministic — identical (role permissions,
assignment override) inputs yield structurally equal outputs; the merge is a
pure function of its two arguments alone. -/
theorem resolvePermissions_deterministic (rp rp2 po po2 : Option Permissions)
    (hr : rp = rp2) (ho : po = po2) :
    resolvePermissions rp po = resolvePermissions rp2 po2 := by
  subst hr
  subst ho
  rfl

/-- Witness for C9: two evaluations of the merge on the same concrete role and
override coincide. -/
theorem resolvePermissions_deterministic_witness :
    resolvePermissions (some leadsOnlyPerms) (some allAndTruePerms)
      = resolvePermissions (some leadsOnlyPerms) (some allAndTruePerms) :=
  resolvePermissions_deterministic (some leadsOnlyPerms) (some leadsOnlyPerms)
    (some allAndTruePerms) (some allAndTruePerms) rfl rfl

/-- A permission document with `leads.read = 'own'` only, the failing
configuration for the missing-record fail-closed requirement. -/
def leadsOwnPerms : Permissions :=
  fun m =>
    match m with
    | .leads => some (fun a => match a with | .read => some .own | _ => none)
    | _ => none

/-- C3 (code bug): with resolved scope `'own'`, calling `can` with record and
userId both absent returns `true` — JS evaluates
`record?.owner_id === userId` as `undefined === undefined` — although the spec
requires an absent record to fail closed.  The same holds for `'ownDeals'`. -/
theorem can_own_missing_record_and_user_allows :
    can (some leadsOwnPerms) Module.leads Action.read none none = true := by
  rfl

/-- The spec's own base example: `leads = {read: "all", create: "all"}`. -/
def exampleBase : Permissions :=
  fun m =>
    match m with
    | .leads =>
        some (fun a =>
          match a with
          | .read => some .all
          | .create => some .all
          | _ => none)
    | _ => none

/-- The spec's own override example: `leads = {read: "own"}`. -/
def exampleOverride : Permissions :=
  fun m =>
    match m with
    | .leads => some (fun a => match a with | .read => some .own | _ => none)
    | _ => none

/-- Counterexample for C2: merging base `{leads: {read:"all", create:"all"}}`
with override `{leads: {read:"own"}}` leaves `leads.create = "all"` — inherited
from base, not replaced by Denied — so `can` still allows `leads.create`. -/
theorem merge_not_module_replacement :
    permValueAt (mergePermissions exampleBase exampleOverride)
        Module.leads Action.create = some PermValue.all
      ∧ can (some (mergePermissions exampleBase exampleOverride))
          Module.leads Action.create none none = true := by
  exact ⟨rfl, rfl⟩

/-- C2 (amended): the role+override merge is per-action, not per-module: at
every (module, action) pair the resolved value is the override's value when the
override carries that action, and otherwise the base's value — the same
coalescing the `rbac_scope` SQL function performs. -/
theorem merge_is_perAction_coalesce (base ovr : Permissions)
    (m : Module) (a : Action) :
    permValueAt (mergePermissions base ovr) m a
      = coalesceValue (permValueAt ovr m a) (permValueAt base m a)
      ∧ rbac_scope (some ovr) (some base) m a
        = coalesceValue (permValueAt ovr m a) (permValueAt base m a) :=
  ⟨mergePermissions_value base ovr m a, rfl⟩

/-- Counterexample for C5: the permission set installed for a user with the
legacy `has_all_access` flag denies `payment_verification` and `dashboard` —
those module keys are absent from `getAllAccessPermissions()` — so the flag
does not allow every (module, action) of the closed vocabulary. -/
theorem allAccess_missing_dashboard_payment_verification :
    loadPermissions true none = some getAllAccessPermissions
      ∧ can (some getAllAccessPermissions) Module.payment_verification
          Action.read none none = false
      ∧ can (some getAllAccessPermissions) Module.dashboard
          Action.read none none = false := by
  exact ⟨rfl, rfl, rfl⟩

/-- C5 (amended): with the legacy `has_all_access` flag set, resolution
bypasses role and override and returns the fixed `getAllAccessPermissions()`
set, which grants (as literal boolean `true`) every action on every module
except `dashboard` and `payment_verification`; those two keys are absent, so
`can` denies them. -/
theorem allAccess_grants_other_modules
    (ucr : Option (Option Permissions × Option Permissions)) (m : Module)
    (a : Action) (record : Option OwnedRecord) (userId : Option String)
    (hd : m ≠ Module.dashboard) (hp : m ≠ Module.payment_verification) :
    can (loadPermissions true ucr) m a record userId = true := by
  show can (some getAllAccessPermissions) m a record userId = true
  rw [can_eq_scopeDecision]
  cases m with
  | dashboard => exact absurd rfl hd
  | payment_verification => exact absurd rfl hp
  | _ => rfl

/-- Witness for C5 (amended): the flag grants `pipeline.delete`, a (module,
action) pair absent from every seeded role definition. -/
theorem allAccess_grants_other_modules_witness :
    can (loadPermissions true none) Module.pipeline Action.delete none none = true :=
  allAccess_grants_other_modules none Module.pipeline Action.delete none none
    (by decide) (by decide)

/-- A role document granting `payment_verification.read = 'own'`, an effective
permission set on which the two enforcement tiers disagree. -/
def pvOwnRole : Permissions :=
  fun m =>
    match m with
    | .payment_verification =>
        some (fun a => match a with | .read => some .own | _ => none)
    | _ => none

/-- Counterexample for C1: with `payment_verification.read = 'own'`, for the
payment row owned by user `u7` queried by `u7`, the application-tier `can`
allows, but the storage-tier `payments_select` policy (which grants only on
`'all'`) denies — the two tiers do not always yield the same decision. -/
theorem can_paymentsSelect_disagree :
    can (loadPermissions false (some (some pvOwnRole, none)))
        Module.payment_verification Action.read
        (some ⟨some "u7", none⟩) (some "u7") = true
      ∧ paymentsSelect none (some pvOwnRole) = false := by
  exact ⟨by decide, rfl⟩

/-- The modules whose four row policies all take the shared
`all`/`own`/deny shape: customers, activities and quotations. -/
def ownerScopedModules : List Module :=
  [Module.customers, Module.activities, Module.quotations]

/-- C1 (amended): the two tiers agree on the owner-scoped tables: for
customers, activities and quotations, any action, any role and override
documents, any row and any authenticated user, provided the resolved scope is
neither `'ownDeals'` nor the literal boolean `true` (cases the owner-shaped
policies do not grant), `can` evaluated on the application-resolved permission
set with the row as record equals the table's row policy.  On other scope/table
combinations the tiers can diverge. -/
theorem can_agrees_ownerTablePolicy (rp po : Option Permissions) (m : Module)
    (a : Action) (row : OwnedRecord) (uid : String)
    (hm : m ∈ ownerScopedModules)
    (hnd : rbac_scope po rp m a ≠ some PermValue.ownDeals)
    (hnt : rbac_scope po rp m a ≠ some PermValue.trueVal) :
    can (loadPermissions false (some (rp, po))) m a (some row) (some uid)
      = ownerTablePolicy po rp m a row.owner_id uid := by
  show can (some (resolvePermissions rp po)) m a (some row) (some uid)
      = ownerTablePolicy po rp m a row.owner_id uid
  rw [can_eq_scopeDecision]
  rcases resolveValue_vs_rbacScope rp po m a with hv | ⟨hs, hv⟩
  · rw [hv]
    cases hsc : rbac_scope po rp m a with
    | none => simp [scopeDecision, ownerTablePolicy, allOwnCase, hsc]
    | some v =>
      cases v with
      | all => simp [scopeDecision, ownerTablePolicy, allOwnCase, hsc]
      | own => simp [scopeDecision, ownerTablePolicy, allOwnCase, hsc]
      | ownDeals => exact absurd hsc hnd
      | falseVal => simp [scopeDecision, ownerTablePolicy, allOwnCase, hsc]
      | trueVal => exact absurd hsc hnt
  · rw [hv]
    simp [scopeDecision, ownerTablePolicy, allOwnCase, hs]

/-- A role document granting `customers.read = 'own'`, used to witness the
agreement of the two tiers on an owner-scoped table. -/
def customersOwnRole : Permissions :=
  fun m =>
    match m with
    | .customers =>
        some (fun a => match a with | .read => some .own | _ => none)
    | _ => none

/-- Witness for C1 (amended): on customers with scope `'own'`, for the row
owned by `u1` and user `u1`, the application tier and the `customers_select`
policy coincide. -/
theorem can_agrees_ownerTablePolicy_witness :
    can (loadPermissions false (some (some customersOwnRole, none)))
        Module.customers Action.read (some ⟨some "u1", none⟩) (some "u1")
      = ownerTablePolicy none (some customersOwnRole) Module.customers
          Action.read (some "u1") "u1" :=
  can_agrees_ownerTablePolicy (some customersOwnRole) none Module.customers
    Action.read ⟨some "u1", none⟩ "u1" (by decide) (by decide) (by decide)

/-- An administrator-style role document: `settings.update = 'all'`, enough to
pass the roles management policy. -/
def settingsAdminRole : Permissions :=
  fun m =>
    match m with
    | .settings =>
        some (fun a => match a with | .update => some .all | _ => none)
    | _ => none

/-- A role document assigning the owner-only scope to `products`, a module
whose table has no ownership column. -/
def productsOwnRole : Permissions :=
  fun m =>
    match m with
    | .products =>
        some (fun a => match a with | .read => some .own | _ => none)
    | _ => none

/-- Counterexample for C7: a writer whose effective `settings.update` scope is
`'all'` is allowed by the roles management policy to store a role document
carrying `products.read = 'own'` — the write is not rejected with
InvalidConfiguration — and at query time the `products_all` policy does
evaluate that configuration, mapping it to deny. -/
theorem role_write_accepts_own_on_products :
    roleUpsertAllowed none (some settingsAdminRole) productsOwnRole = true
      ∧ productsUsing none (some productsOwnRole) = false := by
  exact ⟨rfl, rfl⟩

/-- C7 (amended): no write-time scope validation exists: the roles management
policy depends only on the writer's `settings.update` scope and is independent
of the written permission content, so Own/OwnAssignee on a module with no
ownership column is storable; such a configuration is instead neutralized at
query time, where the non-ownable `products_all` policy grants only on
`'all'`. -/
theorem role_write_content_independent_products_deny
    (po rp : Option Permissions) (p q : Permissions)
    (h : rbac_scope po rp Module.products Action.read ≠ some PermValue.all) :
    roleUpsertAllowed po rp p = roleUpsertAllowed po rp q
      ∧ productsUsing po rp = false := by
  refine ⟨rfl, ?_⟩
  cases hsc : rbac_scope po rp Module.products Action.read with
  | none => simp [productsUsing, allOnlyCase, hsc]
  | some v =>
    cases v with
    | all => exact absurd hsc h
    | _ => simp [productsUsing, allOnlyCase, hsc]

/-- Witness for C7 (amended): the write decision for the `products.read='own'`
role document equals the decision for the administrator document itself, and
the query-time products policy denies under that configuration. -/
theorem role_write_content_independent_products_deny_witness :
    roleUpsertAllowed none (some productsOwnRole) productsOwnRole
        = roleUpsertAllowed none (some productsOwnRole) settingsAdminRole
      ∧ productsUsing none (some productsOwnRole) = false :=
  role_write_content_independent_products_deny none (some productsOwnRole)
    productsOwnRole settingsAdminRole (by decide)

/-- The second `ensureAssigned` pass finds an active row for the pair — the
one it just inserted, if any — and leaves the store unchanged. -/
theorem ensureAssigned_idem (s : List AssignmentRow) (u c r : String) :
    ensureAssigned (ensureAssigned s u c r) u c r = ensureAssigned s u c r := by
  cases h : s.any (activePairPred u c) with
  | true =>
    have he : ensureAssigned s u c r = s := by simp [ensureAssigned, h]
    rw [he, he]
  | false =>
    have he : ensureAssigned s u c r = s ++ [(⟨u, c, r, true⟩ : AssignmentRow)] := by
      simp [ensureAssigned, h]
    have hnew : activePairPred u c (⟨u, c, r, true⟩ : AssignmentRow) = true := by
      simp [activePairPred]
    have hany : (s ++ [(⟨u, c, r, true⟩ : AssignmentRow)]).any (activePairPred u c) = true := by
      apply List.any_eq_true.mpr
      exact ⟨⟨u, c, r, true⟩, by simp, hnew⟩
    rw [he]
    simp [ensureAssigned, hany]

/-- C6: ensure-assigned is idempotent and keeps the one-active-assignment
invariant: running it twice equals running it once; from any state with at most
one active row per (user, company) pair it reaches only such states; and from
any such invariant state — whether the pair has one active row, only inactive
rows, or no row at all — two runs leave exactly one active row for the
pair. -/
theorem ensureAssigned_idempotent_unique_active
    (s : List AssignmentRow) (u c r : String) :
    ensureAssigned (ensureAssigned s u c r) u c r = ensureAssigned s u c r
      ∧ ((∀ x y, activePairCount s x y ≤ 1) →
          ∀ x y, activePairCount (ensureAssigned s u c r) x y ≤ 1)
      ∧ ((∀ x y, activePairCount s x y ≤ 1) →
          activePairCount (ensureAssigned (ensureAssigned s u c r) u c r) u c = 1) := by
  refine ⟨ensureAssigned_idem s u c r, ?_, ?_⟩
  · intro hin x y
    cases h : s.any (activePairPred u c) with
    | true =>
      have he : ensureAssigned s u c r = s := by simp [ensureAssigned, h]
      rw [he]
      exact hin x y
    | false =>
      have he : ensureAssigned s u c r = s ++ [(⟨u, c, r, true⟩ : AssignmentRow)] := by
        simp [ensureAssigned, h]
      have hzero : ∀ row ∈ s, activePairPred u c row = false := by
        intro row hrow
        by_contra hb
        have : s.any (activePairPred u c) = true :=
          List.any_eq_true.mpr ⟨row, hrow, by simpa using hb⟩
        rw [this] at h
        cases h
      rw [he]
      unfold activePairCount
      rw [List.countP_append]
      by_cases hxy : activePairPred x y (⟨u, c, r, true⟩ : AssignmentRow) = true
      · have hux : u = x ∧ c = y := by
          simpa [activePairPred] using hxy
        rcases hux with ⟨hux, hcy⟩
        subst hux
        subst hcy
        have hs0 : s.countP (activePairPred u c) = 0 := by
          rw [List.countP_eq_zero]
          intro row hrow
          simp [hzero row hrow]
        rw [hs0]
        simp [List.countP_cons, hxy]
      · have h1 : [(⟨u, c, r, true⟩ : AssignmentRow)].countP (activePairPred x y) = 0 := by
          simp only [List.countP_cons, List.countP_nil]
          simp [Bool.not_eq_true] at hxy
          simp [hxy]
        rw [h1]
        simpa using hin x y
  · intro hin
    rw [ensureAssigned_idem s u c r]
    cases h : s.any (activePairPred u c) with
    | true =>
      have he : ensureAssigned s u c r = s := by simp [ensureAssigned, h]
      rw [he]
      rcases List.any_eq_true.mp h with ⟨row, hrow, hp⟩
      have hpos : 0 < s.countP (activePairPred u c) :=
        List.countP_pos_iff.mpr ⟨row, hrow, hp⟩
      have hle := hin u c
      unfold activePairCount at hle ⊢
      omega
    | false =>
      have he : ensureAssigned s u c r = s ++ [(⟨u, c, r, true⟩ : AssignmentRow)] := by
        simp [ensureAssigned, h]
      have hzero : ∀ row ∈ s, activePairPred u c row = false := by
        intro row hrow
        by_contra hb
        have : s.any (activePairPred u c) = true :=
          List.any_eq_true.mpr ⟨row, hrow, by simpa using hb⟩
        rw [this] at h
        cases h
      rw [he]
      unfold activePairCount
      rw [List.countP_append]
      have hs0 : s.countP (activePairPred u c) = 0 := by
        rw [List.countP_eq_zero]
        intro row hrow
        simp [hzero row hrow]
      have hnew : activePairPred u c (⟨u, c, r, true⟩ : AssignmentRow) = true := by
        simp [activePairPred]
      rw [hs0]
      simp [List.countP_cons, hnew]

/-- Witness for C6, exercising the deactivated-assignment case: from a store
holding only an inactive row for (`u1`, `co1`) — an invariant-satisfying state
left by a revocation — ensuring the assignment twice is the same as once and
leaves exactly one active row for the pair. -/
theorem ensureAssigned_idempotent_unique_active_witness :
    ensureAssigned
        (ensureAssigned [(⟨"u1", "co1", "viewer", false⟩ : AssignmentRow)]
          "u1" "co1" "viewer") "u1" "co1" "viewer"
        = ensureAssigned [(⟨"u1", "co1", "viewer", false⟩ : AssignmentRow)]
            "u1" "co1" "viewer"
      ∧ activePairCount
          (ensureAssigned
            (ensureAssigned [(⟨"u1", "co1", "viewer", false⟩ : AssignmentRow)]
              "u1" "co1" "viewer") "u1" "co1" "viewer")
          "u1" "co1" = 1 :=
  ⟨(ensureAssigned_idempotent_unique_active
      [(⟨"u1", "co1", "viewer", false⟩ : AssignmentRow)] "u1" "co1" "viewer").1,
    (ensureAssigned_idempotent_unique_active
      [(⟨"u1", "co1", "viewer", false⟩ : AssignmentRow)] "u1" "co1" "viewer").2.2
      (by
        intro x y
        simp [activePairCount, activePairPred])⟩

end NextperienceRBAC
